import Mathlib

/-!
Verification of the toroidal Game of Life engine and its display loop
(`src/main.rs`) against its specification.

The grid is a flat `List Bool` of length `width * height`, addressed by
`row * width + col`.  Signed coordinates are wrapped with Euclidean modulo
(`Int.emod`, matching Rust's `isize::rem_euclid`).
-/

/-- Flat index of `(row, col)` in a grid of the given width
(Rust `pos`). -/
def pos (row col width : Nat) : Nat :=
  row * width + col

/-- Wrapping position: handles negative indices for the toroidal grid
(Rust `pos_wrap`, using `rem_euclid`, i.e. Euclidean modulo). -/
def pos_wrap (row col : Int) (width height : Nat) : Nat :=
  let r := (row % (height : Int)).toNat
  let c := (col % (width : Int)).toNat
  pos r c width

/-- Read a cell of the flat grid; Rust's `grid[idx]` (the default is never
used on in-bounds indices, which `pos_wrap` guarantees). -/
def gridRead (grid : List Bool) (idx : Nat) : Bool :=
  grid.getD idx false

/-- Count live neighbors (8 surrounding cells), mirroring the double
`for dr in -1..=1 { for dc in -1..=1 { ... } }` loop of `cell_next_state`
with its `dr == 0 && dc == 0` skip. -/
def countNeighbors (grid : List Bool) (row col : Int) (width height : Nat) : Nat :=
  List.foldl
    (fun acc dr =>
      List.foldl
        (fun acc dc =>
          if dr = 0 ∧ dc = 0 then acc
          else if gridRead grid (pos_wrap (row + dr) (col + dc) width height)
          then acc + 1 else acc)
        acc [(-1 : Int), 0, 1])
    0 [(-1 : Int), 0, 1]

/-- Apply Game of Life rules at a given position; returns `true` if the
cell should be alive in the next generation (Rust `cell_next_state`). -/
def cell_next_state (grid : List Bool) (row col : Int) (width height : Nat) : Bool :=
  let neighbors := countNeighbors grid row col width height
  let alive := gridRead grid (pos_wrap row col width height)
  match alive, neighbors with
  | true, 2 => true
  | true, 3 => true
  | false, 3 => true
  | _, _ => false

/-- Create the next generation grid from the current grid
(Rust `next_generation`: rows outer, columns inner, collected flat). -/
def next_generation (grid : List Bool) (width height : Nat) : List Bool :=
  (List.range height).flatMap
    (fun row => (List.range width).map
      (fun col => cell_next_state grid (Int.ofNat row) (Int.ofNat col) width height))

/-- Specification-side neighbor count: how many of the 8 toroidally-wrapped
neighbor offsets point at a live cell. -/
def specNeighborCount (grid : List Bool) (row col : Int) (width height : Nat) : Nat :=
  ([(-1, -1), (-1, 0), (-1, 1), (0, -1), (0, 1), (1, -1), (1, 0), (1, 1)] :
      List (Int × Int)).countP
    (fun d => gridRead grid (pos_wrap (row + d.1) (col + d.2) width height))

/-- Toroidal translation of a grid by `(dr, dc)`: the translated grid reads
cell `(r, c)` from wrapped position `(r - dr, c - dc)` of the original. -/
def translateGrid (grid : List Bool) (width height : Nat) (dr dc : Int) : List Bool :=
  (List.range height).flatMap
    (fun row => (List.range width).map
      (fun col => gridRead grid (pos_wrap (Int.ofNat row - dr) (Int.ofNat col - dc) width height)))

/-- The standard 5-cell glider on an otherwise dead 6×6 grid, occupying
rows 0–2 and columns 0–2 (`.X. / ..X / XXX`). -/
def gliderGrid : List Bool :=
  [false, true,  false, false, false, false,
   false, false, true,  false, false, false,
   true,  true,  true,  false, false, false,
   false, false, false, false, false, false,
   false, false, false, false, false, false,
   false, false, false, false, false, false]

/-- Key codes observable by the loop (crossterm `KeyCode`): a character key,
Escape, or any other key. -/
inductive TermKeyCode where
  | char (c : Char)
  | esc
  | other
deriving DecidableEq

/-- Terminal events observable during the poll phase (crossterm `Event`):
a key event carrying a key code, or any non-key event. -/
inductive TermEvent where
  | key (code : TermKeyCode)
  | nonKey
deriving DecidableEq

/-- The quit test of the main loop:
`key.code == KeyCode::Char('q') || key.code == KeyCode::Esc`,
applied only to key events; non-key events never quit. -/
def isQuitEvent : TermEvent → Bool
  | .key (.char c) => c == 'q'
  | .key .esc => true
  | .key .other => false
  | .nonKey => false

/-- States of the display loop: `running` continues iterating with the
current grid, `stopped` (after `break`) is terminal. -/
inductive LoopState where
  | running (grid : List Bool)
  | stopped (grid : List Bool)
deriving DecidableEq

/-- One iteration of the main loop after the render of the current grid:
`polled` is the event delivered within the frame timeout (`none` on
timeout).  A quit event breaks out of the loop with the grid unchanged;
otherwise the grid is replaced by `next_generation`. -/
def loopStep (width height : Nat) (s : LoopState) (polled : Option TermEvent) : LoopState :=
  match s with
  | .stopped g => .stopped g
  | .running g =>
    match polled with
    | some ev =>
      if isQuitEvent ev then .stopped g
      else .running (next_generation g width height)
    | none => .running (next_generation g width height)

/-! ### Helper lemmas -/

theorem pos_wrap_lt {width height : Nat} (hw : 0 < width) (hh : 0 < height)
    (row col : Int) : pos_wrap row col width height < width * height := by
  simp only [pos_wrap, pos]
  have hh0 : (height : Int) ≠ 0 := by exact_mod_cast hh.ne'
  have hw0 : (width : Int) ≠ 0 := by exact_mod_cast hw.ne'
  have hr1 : row % (height : Int) < (height : Int) :=
    Int.emod_lt_of_pos _ (by exact_mod_cast hh)
  have hc1 : col % (width : Int) < (width : Int) :=
    Int.emod_lt_of_pos _ (by exact_mod_cast hw)
  have hr : (row % (height : Int)).toNat < height := by omega
  have hc : (col % (width : Int)).toNat < width := by omega
  calc (row % (height : Int)).toNat * width + (col % (width : Int)).toNat
      < (row % (height : Int)).toNat * width + width := by omega
    _ = ((row % (height : Int)).toNat + 1) * width := by ring
    _ ≤ height * width := Nat.mul_le_mul_right _ (by omega)
    _ = width * height := Nat.mul_comm _ _

theorem length_flatMap_range_map {α : Type} (f : Nat → Nat → α) (w h : Nat) :
    ((List.range h).flatMap (fun r => (List.range w).map (f r))).length = h * w := by
  induction h with
  | zero => simp
  | succ n ih =>
    rw [List.range_succ, List.flatMap_append]
    simp [ih, Nat.succ_mul]

theorem getElem?_flatMap_range_map {α : Type} (f : Nat → Nat → α) {w h r c : Nat}
    (hr : r < h) (hc : c < w) :
    ((List.range h).flatMap (fun row => (List.range w).map (f row)))[r * w + c]? =
      some (f r c) := by
  induction h with
  | zero => omega
  | succ n ih =>
    rw [List.range_succ, List.flatMap_append]
    rcases Nat.lt_or_ge r n with h1 | h1
    · rw [List.getElem?_append_left]
      · exact ih h1
      · rw [length_flatMap_range_map]
        calc r * w + c < r * w + w := by omega
          _ = (r + 1) * w := by ring
          _ ≤ n * w := Nat.mul_le_mul_right _ (by omega)
    · have hrn : r = n := by omega
      subst hrn
      rw [List.getElem?_append_right (by rw [length_flatMap_range_map]; omega)]
      rw [length_flatMap_range_map]
      simp [List.getElem?_range hc]

theorem gridRead_replicate_false (n i : Nat) :
    gridRead (List.replicate n false) i = false := by
  unfold gridRead
  rcases Nat.lt_or_ge i n with h | h
  · rw [List.getD_eq_getElem?_getD, List.getElem?_replicate_of_lt h]; rfl
  · rw [List.getD_eq_getElem?_getD, List.getElem?_replicate,
      if_neg (by omega)]; rfl

theorem countNeighbors_dead (row col : Int) (w h : Nat) :
    countNeighbors (List.replicate (w * h) false) row col w h = 0 := by
  simp [countNeighbors, gridRead_replicate_false]

theorem cell_next_state_dead (row col : Int) (w h : Nat) :
    cell_next_state (List.replicate (w * h) false) row col w h = false := by
  simp [cell_next_state, countNeighbors_dead, gridRead_replicate_false]

theorem next_generation_dead (w h : Nat) :
    next_generation (List.replicate (w * h) false) w h
      = List.replicate (w * h) false := by
  rw [List.eq_replicate_iff]
  refine ⟨?_, ?_⟩
  · rw [next_generation, length_flatMap_range_map, Nat.mul_comm]
  · intro b hb
    rw [next_generation] at hb
    simp only [List.mem_flatMap, List.mem_map] at hb
    obtain ⟨r, _, c, _, hbc⟩ := hb
    rw [← hbc, cell_next_state_dead]

theorem foldl_add_of_step {α : Type} (f : Nat → α → Nat) (g : α → Nat)
    (hf : ∀ acc x, f acc x = acc + g x) (l : List α) :
    ∀ acc, l.foldl f acc = acc + (l.map g).sum := by
  induction l with
  | nil => simp
  | cons a t ih =>
    intro acc
    rw [List.foldl_cons, hf, ih]
    simp [Nat.add_assoc]

theorem countNeighbors_eq_spec (grid : List Bool) (row col : Int) (w h : Nat) :
    countNeighbors grid row col w h = specNeighborCount grid row col w h := by
  have hstep : ∀ (dr : Int) (acc : Nat),
      List.foldl
        (fun acc dc =>
          if dr = 0 ∧ dc = 0 then acc
          else if gridRead grid (pos_wrap (row + dr) (col + dc) w h)
          then acc + 1 else acc)
        acc [(-1 : Int), 0, 1]
      = acc + (([(-1 : Int), 0, 1]).map
          (fun dc =>
            if dr = 0 ∧ dc = 0 then 0
            else if gridRead grid (pos_wrap (row + dr) (col + dc) w h)
            then 1 else 0)).sum := by
    intro dr acc
    refine foldl_add_of_step _ _ ?_ _ _
    intro a x
    split_ifs <;> omega
  unfold countNeighbors specNeighborCount
  rw [foldl_add_of_step
      (fun acc dr =>
        List.foldl
          (fun acc dc =>
            if dr = 0 ∧ dc = 0 then acc
            else if gridRead grid (pos_wrap (row + dr) (col + dc) w h)
            then acc + 1 else acc)
          acc [(-1 : Int), 0, 1])
      (fun dr => (([(-1 : Int), 0, 1]).map
        (fun dc =>
          if dr = 0 ∧ dc = 0 then 0
          else if gridRead grid (pos_wrap (row + dr) (col + dc) w h)
          then 1 else 0)).sum)
      (fun acc dr => hstep dr acc) [(-1 : Int), 0, 1] 0]
  simp only [List.map_cons, List.map_nil, List.sum_cons, List.sum_nil,
    List.countP_cons, List.countP_nil]
  norm_num
  omega

/-! ### Claim theorems -/

/-- C1: for every grid, row, col and positive width and height with the grid
of length `width * height`, `cell_next_state` returns `true` exactly when the
cell at the wrapped position is alive and its 8 toroidally-wrapped neighbors
contain exactly 2 or 3 alive cells, or the cell is dead and the neighbor
count is exactly 3; in all other cases it returns `false`. -/
theorem C1_cell_next_state_rule (grid : List Bool) (row col : Int)
    (width height : Nat) (hw : 0 < width) (hh : 0 < height)
    (hlen : grid.length = width * height) :
    cell_next_state grid row col width height = true ↔
      (gridRead grid (pos_wrap row col width height) = true ∧
        (specNeighborCount grid row col width height = 2 ∨
         specNeighborCount grid row col width height = 3)) ∨
      (gridRead grid (pos_wrap row col width height) = false ∧
        specNeighborCount grid row col width height = 3) := by
  rw [← countNeighbors_eq_spec]
  unfold cell_next_state
  cases hA : gridRead grid (pos_wrap row col width height) <;>
    rcases hn : countNeighbors grid row col width height with _ | _ | _ | _ | m <;>
      simp_all

/-- Witness for C1 at a concrete input (1×1 grid, single live cell). -/
theorem C1_cell_next_state_rule_witness :
    (cell_next_state [true] 0 0 1 1 = true ↔
      (gridRead [true] (pos_wrap 0 0 1 1) = true ∧
        (specNeighborCount [true] 0 0 1 1 = 2 ∨
         specNeighborCount [true] 0 0 1 1 = 3)) ∨
      (gridRead [true] (pos_wrap 0 0 1 1) = false ∧
        specNeighborCount [true] 0 0 1 1 = 3)) :=
  C1_cell_next_state_rule [true] 0 0 1 1 (by decide) (by decide) (by decide)

/-- C2: for every grid of length `width * height` with positive dimensions,
`next_generation` returns a grid of exactly `width * height` entries whose
entry at flat index `r * width + c` equals `cell_next_state` of the prior,
unmodified input grid at `(r, c)`, for every `r < height`, `c < width`. -/
theorem C2_next_generation_pointwise (grid : List Bool) (width height : Nat)
    (hw : 0 < width) (hh : 0 < height) (hlen : grid.length = width * height) :
    (next_generation grid width height).length = width * height ∧
      ∀ r c : Nat, r < height → c < width →
        (next_generation grid width height)[r * width + c]? =
          some (cell_next_state grid (Int.ofNat r) (Int.ofNat c) width height) := by
  constructor
  · rw [next_generation, length_flatMap_range_map, Nat.mul_comm]
  · intro r c hr hc
    rw [next_generation]
    exact getElem?_flatMap_range_map
      (fun row col => cell_next_state grid (Int.ofNat row) (Int.ofNat col) width height)
      hr hc

/-- Witness for C2 at a concrete input (1×1 grid). -/
theorem C2_next_generation_pointwise_witness :
    ((next_generation [true] 1 1).length = 1 * 1 ∧
      ∀ r c : Nat, r < 1 → c < 1 →
        (next_generation [true] 1 1)[r * 1 + c]? =
          some (cell_next_state [true] (Int.ofNat r) (Int.ofNat c) 1 1)) :=
  C2_next_generation_pointwise [true] 1 1 (by decide) (by decide) (by decide)

/-- C3: for every (possibly negative or overflowing) signed row and col and
positive width and height, `pos_wrap` computes
`(row mod height) * width + (col mod width)` with true mathematical
(non-negative, Euclidean) modulo; in particular row `-1` wraps to row
`height - 1`. -/
theorem C3_pos_wrap_euclidean (row col : Int) (width height : Nat)
    (hw : 0 < width) (hh : 0 < height) :
    ((pos_wrap row col width height : Nat) : Int)
        = row % (height : Int) * width + col % (width : Int) ∧
      pos_wrap (-1) col width height
        = (height - 1) * width + (col % (width : Int)).toNat := by
  have hh0 : (height : Int) ≠ 0 := by exact_mod_cast hh.ne'
  have hw0 : (width : Int) ≠ 0 := by exact_mod_cast hw.ne'
  have hr0 : 0 ≤ row % (height : Int) := Int.emod_nonneg _ hh0
  have hc0 : 0 ≤ col % (width : Int) := Int.emod_nonneg _ hw0
  have hh1 : (1 : Int) ≤ (height : Int) := by exact_mod_cast hh
  have hm : (-1 : Int) % (height : Int) = (height : Int) - 1 := by
    have h1 : ((-1 : Int) + (height : Int) * 1) % (height : Int)
        = (-1 : Int) % (height : Int) := Int.add_mul_emod_self_left _ _ _
    have h2 : ((height : Int) - 1) % (height : Int) = (height : Int) - 1 :=
      Int.emod_eq_of_lt (by omega) (by omega)
    calc (-1 : Int) % (height : Int)
        = ((-1 : Int) + (height : Int) * 1) % (height : Int) := h1.symm
      _ = ((height : Int) - 1) % (height : Int) := by ring_nf
      _ = (height : Int) - 1 := h2
  constructor
  · simp only [pos_wrap, pos]
    push_cast [Int.toNat_of_nonneg hr0, Int.toNat_of_nonneg hc0]
    ring
  · simp only [pos_wrap, pos]
    have hmt : ((-1 : Int) % (height : Int)).toNat = height - 1 := by
      rw [hm]; omega
    rw [hmt]

/-- Witness for C3 at a concrete input (row -1 on a 3×4 grid). -/
theorem C3_pos_wrap_euclidean_witness :
    (((pos_wrap (-1) 5 3 4 : Nat) : Int)
        = (-1 : Int) % ((4 : Nat) : Int) * 3 + (5 : Int) % ((3 : Nat) : Int) ∧
      pos_wrap (-1) 5 3 4
        = (4 - 1) * 3 + ((5 : Int) % ((3 : Nat) : Int)).toNat) :=
  C3_pos_wrap_euclidean (-1) 5 3 4 (by decide) (by decide)

/-- C4: for every grid of length exactly `width * height` with positive
dimensions, every wrapped index used by a grid read during next-state
computation (the self read and each neighbor read in `cell_next_state`, and
hence every read in `next_generation`) is strictly below the grid length, so
no out-of-bounds access can occur. -/
theorem C4_reads_in_bounds (grid : List Bool) (width height : Nat)
    (hw : 0 < width) (hh : 0 < height) (hlen : grid.length = width * height) :
    ∀ row col : Int, pos_wrap row col width height < grid.length := by
  intro row col
  rw [hlen]
  exact pos_wrap_lt hw hh row col

/-- Witness for C4 at a concrete input (2×2 grid, negative coordinates). -/
theorem C4_reads_in_bounds_witness :
    pos_wrap (-1) (-1) 2 2 < ([true, false, true, false] : List Bool).length :=
  C4_reads_in_bounds [true, false, true, false] 2 2
    (by decide) (by decide) (by decide) (-1) (-1)

/-- C5: translation by a full period in each axis is a no-op for `pos_wrap`:
`pos_wrap (row + height) (col + width) = pos_wrap row col` for every signed
row and col and positive width and height. -/
theorem C5_pos_wrap_periodic (row col : Int) (width height : Nat)
    (hw : 0 < width) (hh : 0 < height) :
    pos_wrap (row + (height : Int)) (col + (width : Int)) width height
      = pos_wrap row col width height := by
  simp only [pos_wrap, pos]
  have h1 : (row + (height : Int)) % (height : Int) = row % (height : Int) := by
    have hself := Int.add_mul_emod_self_left row (height : Int) 1
    simpa using hself
  have h2 : (col + (width : Int)) % (width : Int) = col % (width : Int) := by
    have hself := Int.add_mul_emod_self_left col (width : Int) 1
    simpa using hself
  rw [h1, h2]

/-- Witness for C5 at a concrete input. -/
theorem C5_pos_wrap_periodic_witness :
    pos_wrap (-2 + ((4 : Nat) : Int)) (7 + ((3 : Nat) : Int)) 3 4
      = pos_wrap (-2) 7 3 4 :=
  C5_pos_wrap_periodic (-2) 7 3 4 (by decide) (by decide)

/-- C6: the all-dead grid of length `width * height` is a fixed point of
`next_generation`: any number of iterated applications yields the same
fully-dead grid. -/
theorem C6_dead_fixed_point (width height n : Nat)
    (hw : 0 < width) (hh : 0 < height) :
    (fun g => next_generation g width height)^[n]
        (List.replicate (width * height) false)
      = List.replicate (width * height) false := by
  induction n with
  | zero => rfl
  | succ k ih => rw [Function.iterate_succ_apply', ih, next_generation_dead]

/-- Witness for C6 at a concrete input (2×2 grid, 2 generations). -/
theorem C6_dead_fixed_point_witness :
    (fun g => next_generation g 2 2)^[2] (List.replicate (2 * 2) false)
      = List.replicate (2 * 2) false :=
  C6_dead_fixed_point 2 2 2 (by decide) (by decide)

/-- C7: placing the standard 5-cell glider on an otherwise-dead 6×6 grid and
applying `next_generation` 4 times yields the same 5-cell pattern translated
by (1, 1) — one row down, one column right — with all other cells dead. -/
theorem C7_glider_period_four :
    (fun g => next_generation g 6 6)^[4] gliderGrid
      = translateGrid gliderGrid 6 6 1 1 := by
  decide

/-- C8 counterexample: the fully-alive 3×3 grid is not a fixed point of
`next_generation` — the output differs from the input. -/
theorem C8_counterexample :
    next_generation (List.replicate 9 true) 3 3 ≠ List.replicate 9 true := by
  decide

/-- C8 (amended): on the 3×3 torus every cell of the fully-alive grid has 8
live neighbors and dies, so `next_generation` maps the fully-alive 3×3 grid
to the fully-dead 3×3 grid (it is not a fixed point). -/
theorem C8_all_alive_3x3_dies :
    next_generation (List.replicate 9 true) 3 3 = List.replicate 9 false := by
  decide

/-- C9: in the display loop's step relation, a polled key event with code
'q' (case-sensitive lowercase) or Escape moves `running` to the terminal
`stopped` state with the grid unchanged (never advanced); any other polled
event, or a poll timeout, leaves the loop running with the grid advanced by
`next_generation`. -/
theorem C9_quit_transition (width height : Nat) (g : List Bool)
    (polled : Option TermEvent) :
    (∀ ev, polled = some ev → isQuitEvent ev = true →
        loopStep width height (LoopState.running g) polled
          = LoopState.stopped g) ∧
      ((∀ ev, polled = some ev → isQuitEvent ev = false) →
        loopStep width height (LoopState.running g) polled
          = LoopState.running (next_generation g width height)) ∧
      (∀ c, isQuitEvent (TermEvent.key (TermKeyCode.char c)) = (c == 'q')) ∧
      isQuitEvent (TermEvent.key TermKeyCode.esc) = true ∧
      isQuitEvent TermEvent.nonKey = false := by
  refine ⟨?_, ?_, ?_, rfl, rfl⟩
  · intro ev hev hq
    subst hev
    simp [loopStep, hq]
  · intro hnq
    cases polled with
    | none => rfl
    | some ev => simp [loopStep, hnq ev rfl]
  · intro c
    rfl

/-- Witness for C9 at a concrete input: a polled 'q' key event stops a
running 2×2 loop without advancing the grid. -/
theorem C9_quit_transition_witness :
    loopStep 2 2 (LoopState.running [true, false, false, true])
        (some (TermEvent.key (TermKeyCode.char 'q')))
      = LoopState.stopped [true, false, false, true] :=
  (C9_quit_transition 2 2 [true, false, false, true]
      (some (TermEvent.key (TermKeyCode.char 'q')))).1
    (TermEvent.key (TermKeyCode.char 'q')) rfl (by decide)

/-- C10: `next_generation` is total on degenerate dimensions — for width 0
or height 0 it returns the empty grid, the row/column iteration being empty
(so `cell_next_state`, and with it `pos_wrap`'s zero modulus, is never
invoked). -/
theorem C10_degenerate_dimensions (grid : List Bool) (width height : Nat)
    (h : width = 0 ∨ height = 0) :
    next_generation grid width height = [] := by
  rcases h with h | h <;> subst h <;> simp [next_generation]

/-- Witness for C10 at a concrete input (width 0, height 5). -/
theorem C10_degenerate_dimensions_witness :
    next_generation [true] 0 5 = [] :=
  C10_degenerate_dimensions [true] 0 5 (Or.inl rfl)
